import Mathlib

/-!
Shallow embedding of the `publish` pipeline of the ptool repository
(`src/cmd/publish/publish.go`), together with theorems settling the frozen
claims about it.

Modelling conventions:
* Go byte strings are modelled as `List Char` (`Str`); all the delimiters and
  keys involved are ASCII, so bytes and runes coincide on every input the
  claims touch.
* `url.Values` (a Go `map[string][]string`) is modelled as an association
  list observed only through lookup, which is exactly how the source observes
  it; `vassign`/`vset`/`vadd` mirror `m[k] = v`, `m.Set`, `m.Add`.
* External collaborators (site, client, torrent builder, YAML decoder) are
  oracles carried in an `Env` record, as functions of the data the source
  passes them.  The local filesystem of one content folder is the
  `FolderState` record: each field models the presence/contents of one file
  the source reads or writes.
* Each externally visible call of the pipeline is recorded as an `Event` in
  the order the source performs it.
-/

namespace PtoolPublish

abbrev Str := List Char

/-- Character lookup, `none` when out of range (models safe indexing used by
the word-boundary semantics below). -/
def charAt (s : Str) (p : Nat) : Option Char :=
  (s.drop p).head?

/-- Index of the first occurrence of `pat` as a contiguous sublist of `l`
(models Go `bytes.Index`, with `none` for Go's `-1`). -/
def indexOfSublist : Str → Str → Option Nat
  | [], pat => if pat = [] then some 0 else none
  | c :: rest, pat =>
    if pat.isPrefixOf (c :: rest) then some 0
    else (indexOfSublist rest pat).map (· + 1)

/-- ASCII whitespace recognised by Go `strings.TrimSpace` (`unicode.IsSpace`
restricted to ASCII, which is all the pipeline's inputs use). -/
def goIsSpace (c : Char) : Bool :=
  c = ' ' || c = '\t' || c = '\n' || c = '\r' || c = '\x0b' || c = '\x0c'

/-- Go `strings.TrimSpace`. -/
def goTrimSpace (s : Str) : Str :=
  ((s.dropWhile goIsSpace).reverse.dropWhile goIsSpace).reverse

/-- Split a list at every occurrence of the character `c` (models Go
`strings.Split(s, ",")` for a one-character separator). -/
def splitChar (c : Char) : Str → List Str
  | [] => [[]]
  | x :: xs =>
    if x = c then [] :: splitChar c xs
    else
      match splitChar c xs with
      | [] => [[x]]
      | r :: rs => (x :: r) :: rs

/-- Modelled from the spec: `util.SplitCsv` is code of this repository that is
not under `src/`; the spec says a scalar value of an array-typed field "is
split on comma into trimmed elements". -/
def splitCsv (s : Str) : List Str :=
  (splitChar ',' s).map goTrimSpace

/-- Go regexp word character `\w` = `[0-9A-Za-z_]` (ASCII). -/
def isWordChar (c : Char) : Bool :=
  c.isAlphanum || c = '_'

def charWord : Option Char → Bool
  | none => false
  | some c => isWordChar c

/-- Go regexp `\b` at position `p` of `s`: the wordness of the characters on
the two sides of the position differs (out of range counts as non-word). -/
def boundaryAt (s : Str) (p : Nat) : Bool :=
  charWord (if p = 0 then none else charAt s (p - 1)) != charWord (charAt s p)

/-- Whether the regexp `\b<quoted pat>\b` matches anywhere inside `s`
(models the existing-check re-filter built with `regexp.QuoteMeta`). -/
def wholeWordMatch (pat s : Str) : Bool :=
  (List.range (s.length + 1)).any fun i =>
    pat.isPrefixOf (s.drop i) && boundaryAt s i && boundaryAt s (i + pat.length)

/-- Go `strings.ReplaceAll` for one-character needle and replacement. -/
def replaceAllChar (s : Str) (a b : Char) : Str :=
  s.map fun c => if c = a then b else c

/-- Metadata key normalisation from `parseMetadataFile`:
`if strings.ContainsAny(key, " \t") { ReplaceAll(key," ","_"); ReplaceAll(key,"\t","_") }`. -/
def normalizeKey (key : Str) : Str :=
  if key.any (fun c => c = ' ' || c = '\t') then
    replaceAllChar (replaceAllChar key ' ' '_') '\t' '_'
  else key

/-! ### `url.Values` -/

abbrev Values := List (Str × List Str)

def vlookup : Values → Str → Option (List Str)
  | [], _ => none
  | p :: rest, k => if p.1 = k then some p.2 else vlookup rest k

/-- `url.Values` read of the full slice for a key (`metadata["tags"]`). -/
def vgetAll (m : Values) (k : Str) : List Str :=
  (vlookup m k).getD []

/-- `url.Values.Get`: the first value for the key, `""` when absent. -/
def vget (m : Values) (k : Str) : Str :=
  match vgetAll m k with
  | [] => []
  | v :: _ => v

/-- Go map assignment `m[k] = vs`. -/
def vassign : Values → Str → List Str → Values
  | [], k, vs => [(k, vs)]
  | p :: rest, k, vs => if p.1 = k then (k, vs) :: rest else p :: vassign rest k vs

/-- `url.Values.Set`. -/
def vset (m : Values) (k : Str) (v : Str) : Values :=
  vassign m k [v]

/-- `url.Values.Add`. -/
def vadd : Values → Str → Str → Values
  | [], k, v => [(k, [v])]
  | p :: rest, k, v =>
    if p.1 = k then (p.1, p.2 ++ [v]) :: rest else p :: vadd rest k v

theorem vlookup_vassign_self (m : Values) (k : Str) (vs : List Str) :
    vlookup (vassign m k vs) k = some vs := by
  induction m with
  | nil => simp [vassign, vlookup]
  | cons p rest ih =>
    by_cases h : p.1 = k
    · simp [vassign, vlookup, h]
    · simp [vassign, vlookup, h, ih]

theorem vlookup_vassign_ne (m : Values) (k k' : Str) (vs : List Str)
    (h : k' ≠ k) : vlookup (vassign m k' vs) k = vlookup m k := by
  induction m with
  | nil => simp [vassign, vlookup, h]
  | cons p rest ih =>
    by_cases hp : p.1 = k'
    · simp [vassign, vlookup, hp, h, Ne.symm h]
    · simp [vassign, vlookup, hp, ih]

/-! ### Metadata extractor (`parseMetadataFile`) -/

/-- A value produced by decoding the YAML front-matter block into
`map[string]any`.  Elements of a YAML sequence (`[]any`) are carried already
rendered by `fmt.Sprint`, because the source immediately renders each element
with `fmt.Sprint` before storing it; likewise `other` carries the
`fmt.Sprint` rendering of a non-string scalar. -/
inductive YamlVal where
  | str (s : Str)
  | strList (l : List Str)
  | anyList (l : List Str)
  | other (sprinted : Str)
deriving DecidableEq

/-- The YAML decoder collaborator (`yaml.Unmarshal` into `map[string]any`);
`none` models a decode error, and the association list carries the map in its
(arbitrary) Go iteration order. -/
abbrev Decoder := Str → Option (List (Str × YamlVal))

inductive ParseErr where
  | invalidFormat
  | decodeError
deriving DecidableEq

deriving instance DecidableEq for Except

/-- Opening front-matter delimiter `"---\n"`. -/
def openDeli : Str := '-' :: '-' :: '-' :: '\n' :: []

/-- Closing front-matter delimiter `"\n---\n"`. -/
def closeDeli : Str := '\n' :: '-' :: '-' :: '-' :: '\n' :: []

/-- Reserved key `"_text"` for the free text after the closing delimiter. -/
def textKey : Str := '_' :: 't' :: 'e' :: 'x' :: 't' :: []

/-- Reserved key `"_meta"` for the raw front-matter block. -/
def metaKey : Str := '_' :: 'm' :: 'e' :: 't' :: 'a' :: []

/-- One iteration of the `for key, value := range rawMetadata` loop of
`parseMetadataFile`. -/
def metaEntry (arrayKeys : List Str) (m : Values) (kv : Str × YamlVal) : Values :=
  let key := normalizeKey kv.1
  match kv.2 with
  | .str v => if arrayKeys.contains key then vassign m key (splitCsv v) else vset m key v
  | .strList l => vassign m key l
  | .anyList l => l.foldl (fun m vi => vadd m key vi) m
  | .other r => vset m key r

/-- `parseMetadataFile` of `src/cmd/publish/publish.go` (lines 221-268), with
the file contents passed in place of the filename read. -/
def parseMetadataFile (decode : Decoder) (arrayKeys : List Str) (contents : Str) :
    Except ParseErr Values :=
  if contents.length < 10 ∨ ¬ openDeli.isPrefixOf contents then
    .error .invalidFormat
  else
    let rest := contents.drop openDeli.length
    match indexOfSublist rest closeDeli with
    | none => .error .invalidFormat
    | some index =>
      if index < 3 then .error .invalidFormat
      else
        let text := goTrimSpace (rest.drop (index + closeDeli.length))
        let block := rest.take index
        match decode block with
        | none => .error .decodeError
        | some raw =>
          let m := raw.foldl (metaEntry arrayKeys) []
          let m := vset m textKey text
          let m := vset m metaKey block
          .ok m

/-! ### Data model of one content folder and the collaborators -/

/-- The `.torrent` artifact file of a content folder: its bytes and its
modification time (unix seconds, as compared by the source). -/
structure Artifact where
  contents : Str
  mtime : Int
deriving DecidableEq

/-- One result of the site's `SearchTorrents`. -/
structure SearchResult where
  id : Str
  name : Str
  description : Str
deriving DecidableEq

/-- Outcome of the site's `PublishTorrent`: a returned id, the distinguished
dry-run error `constants.ErrDryRun`, or any other error. -/
inductive PubOutcome where
  | ok (id : Str)
  | dryRun
  | err
deriving DecidableEq

/-- Outcome of `torrentutil.MakeTorrent`: the distinguished
`torrentutil.ErrSmall` or any other error. -/
inductive MakeErr where
  | small
  | other
deriving DecidableEq

/-- Externally visible calls the pipeline performs, in order. -/
inductive Event where
  | search
  | makeTorrent
  | verify
  | publish
  | download
  | clientAdd
deriving DecidableEq

/-- Terminal classification of one `publicTorrent` run, one constructor per
`return` site of the source (`.failed` collapses the generic wrapped errors;
`.panicked` is the nil-client crash inside `downloadPublishedTorrent`). -/
inductive Outcome where
  | published (id : Str)
  | dryRunReady
  | alreadyPublished
  | existing
  | noMetadata
  | invalidMetadata
  | noTitle
  | tagMismatch
  | tooSmall
  | pathConflict
  | mapperFail
  | panicked
  | failed
deriving DecidableEq

/-- The caller-controlled configuration of one `publicTorrent` call. -/
structure Config where
  /-- `moveOk != ""`: a move-ok-to directory is configured. -/
  moveOk : Bool
  /-- `savePathMapper != nil`. -/
  mapperConfigured : Bool
  checkExisting : Bool
  dryRun : Bool
  mustMetadataFile : Bool
  /-- `clientInstance != nil`, i.e. the caller passed `--client`. -/
  clientRequested : Bool
  /-- `mustTags`, `nil` when the `--must-tag` flag is unset. -/
  mustTags : Option (List Str)
  metaArrayKeys : List Str
  otherFields : Values

/-- The external collaborators, as deterministic oracles of exactly the data
the source passes them. -/
structure Env where
  decode : Decoder
  /-- Whether `savePathMapper.Before2After(savePath)` matches. -/
  mapperMatches : Bool
  /-- Image files resolved by the wildcard scan of the `--image` flags. -/
  images : List Str
  /-- `util.ExistsFileWithAnySuffix(contentPath/cover, ImgExts)`. -/
  coverImage : Option Str
  /-- `siteInstance.SearchTorrents(query, "")`. -/
  search : Str → Except Unit (List SearchResult)
  /-- `torrentutil.MakeTorrent` with the fixed options of the source. -/
  make : Except MakeErr Artifact
  /-- Whether `torrentutil.ParseTorrent` succeeds on given torrent bytes. -/
  parseTorrent : Str → Bool
  /-- `tinfo.Verify("", contentPath, 1)`: the newest content mtime, or a
  hash-mismatch error, as a function of the torrent bytes. -/
  verify : Str → Except Unit Int
  /-- `siteInstance.PublishTorrent(torrentContents, metadata)`. -/
  publishResult : Str → Values → PubOutcome
  /-- `siteInstance.DownloadTorrentById(id)`. -/
  download : Str → Except Unit Str
  /-- `clientInstance.AddTorrent(...)` (meaningful only when
  `clientRequested` is true). -/
  addResult : Except Unit Unit

/-- The durable per-(content folder, site) filesystem state: one field per
file of the folder the source reads or writes. -/
structure FolderState where
  /-- Contents of `constants.METADATA_FILE`, when the file exists. -/
  metadataFile : Option Str
  /-- Contents of the `.published-<site>` marker, when it exists. -/
  publishedMarker : Option Str
  /-- Contents of the `.existing-<site>` marker, when it exists
  (`some []` after a bare `util.TouchFile`). -/
  existingMarker : Option Str
  /-- Contents of the cached `.<site>.torrent` copy, when it exists. -/
  cachedTorrent : Option Str
  /-- The `.torrent` artifact, when it exists. -/
  artifact : Option Artifact
  /-- Whether the folder has already been moved into the move-ok-to dir. -/
  relocated : Bool
  /-- Whether an unrelated entry occupies the move-ok-to target path. -/
  targetBlocked : Bool
deriving DecidableEq

/-- Result of one `publicTorrent` run: classification, final folder state and
the trace of external calls. -/
structure RunResult where
  outcome : Outcome
  state : FolderState
  events : List Event
deriving DecidableEq

/-! ### The pipeline (`publicTorrent` and `downloadPublishedTorrent`) -/

def titleKey : Str := 't' :: 'i' :: 't' :: 'l' :: 'e' :: []

def tagsKey : Str := 't' :: 'a' :: 'g' :: 's' :: []

def numberKey : Str := 'n' :: 'u' :: 'm' :: 'b' :: 'e' :: 'r' :: []

def imagesKey : Str := '_' :: 'i' :: 'm' :: 'a' :: 'g' :: 'e' :: 's' :: []

def coverKey : Str := '_' :: 'c' :: 'o' :: 'v' :: 'e' :: 'r' :: []

/-- Modelled from the spec: the literal of `constants.METADATA_KEY_ARRAY_KEYS`
is not under `src/`; only its reserved-key role matters here. -/
def arrayKeysKey : Str := '_' :: 'a' :: 'r' :: 'r' :: 'a' :: 'y' :: '_' :: 'k' :: 'e' :: 'y' :: 's' :: []

/-- Modelled from the spec: the literal of `constants.METADATA_KEY_DRY_RUN`
is not under `src/`; only its reserved-key role matters here. -/
def dryRunKey : Str := '_' :: 'd' :: 'r' :: 'y' :: '_' :: 'r' :: 'u' :: 'n' :: []

/-- Error cases of `downloadPublishedTorrent`, one per `return` site;
`.nilClient` is the run-time panic of calling `AddTorrent` on a nil client
interface. -/
inductive DLErr where
  | noIdFile
  | emptyIdFile
  | downloadFail
  | mapperFail
  | nilClient
  | addFail
deriving DecidableEq

/-- The move of the content folder into the move-ok-to dir
(`atomic.ReplaceFile(contentPath, targetContentPath)`, performed whenever
`targetContentPath != contentPath`, i.e. whenever a move-ok-to dir is
configured and the folder is not already there). -/
def moveIfNeeded (cfg : Config) (s : FolderState) : FolderState :=
  if cfg.moveOk && !s.relocated then { s with relocated := true } else s

/-- Tail of `downloadPublishedTorrent` (lines 486-502): the save-path mapping
re-check and the unconditional `clientInstance.AddTorrent` call. -/
def addPhase (cfg : Config) (env : Env) (s : FolderState) (evs : List Event) :
    Except DLErr Unit × FolderState × List Event :=
  if cfg.mapperConfigured && !env.mapperMatches then (.error .mapperFail, s, evs)
  else if !cfg.clientRequested then (.error .nilClient, s, evs)
  else
    match env.addResult with
    | .error _ => (.error .addFail, s, evs ++ [.clientAdd])
    | .ok _ => (.ok (), s, evs ++ [.clientAdd])

/-- `downloadPublishedTorrent` of `src/cmd/publish/publish.go`
(lines 455-503). -/
def downloadPublishedTorrent (cfg : Config) (env : Env) (s : FolderState) :
    Except DLErr Unit × FolderState × List Event :=
  match s.cachedTorrent with
  | some _ => addPhase cfg env s []
  | none =>
    match s.publishedMarker with
    | none => (.error .noIdFile, s, [])
    | some id =>
      if id = [] then (.error .emptyIdFile, s, [])
      else
        match env.download id with
        | .error _ => (.error .downloadFail, s, [.download])
        | .ok contents =>
          addPhase cfg env { s with cachedTorrent := some contents } [.download]

/-- The value of `existingTorrentId` after the re-filter loop of lines
364-370: the id of the first result whose name or description matches the
whole-word regexp, `""` when no result matches. -/
def firstExistingId (number : Str) (torrents : List SearchResult) : Str :=
  ((torrents.find? fun t =>
      wholeWordMatch number t.name || wholeWordMatch number t.description).map
    (fun t => t.id)).getD []

/-- The existing-content check of `publicTorrent` (lines 358-375): live
search on the `number` field, whole-word re-filter, break on the first match,
marker write only for a non-empty matched id.  `Sum.inl` is an early return,
`Sum.inr` continues the pipeline. -/
def existingSearchStep (cfg : Config) (env : Env) (metadata : Values)
    (s : FolderState) : RunResult ⊕ (FolderState × List Event) :=
  if !(vget metadata numberKey).isEmpty && cfg.checkExisting then
    match env.search (vget metadata numberKey) with
    | .error _ => .inl ⟨.failed, s, [.search]⟩
    | .ok torrents =>
      if !(firstExistingId (vget metadata numberKey) torrents).isEmpty then
        .inl ⟨.existing,
          { s with existingMarker := some (firstExistingId (vget metadata numberKey) torrents) },
          [.search]⟩
      else .inr (s, [.search])
  else .inr (s, [])

/-- Whether the pre-existing artifact is considered obsolete (line 411):
`tinfo.Verify(...)` errors, or the newest content mtime it returns is newer
than the artifact file's mtime. -/
def staleArtifact (env : Env) (a : Artifact) : Bool :=
  match env.verify a.contents with
  | .error _ => true
  | .ok ts => ts > a.mtime

/-- Lines 398-425: stat/read/parse the artifact, verify it, and re-make it
when obsolete (`Force: true`, so a re-make fully replaces the file). -/
def verifyPhase (env : Env) (s : FolderState) (a : Artifact) (evs : List Event) :
    RunResult ⊕ (FolderState × Str × List Event) :=
  if !env.parseTorrent a.contents then .inl ⟨.failed, s, evs⟩
  else if staleArtifact env a then
    match env.make with
    | .error .small => .inl ⟨.tooSmall, s, evs ++ [.verify, .makeTorrent]⟩
    | .error .other => .inl ⟨.failed, s, evs ++ [.verify, .makeTorrent]⟩
    | .ok a2 => .inr ({ s with artifact := some a2 }, a2.contents, evs ++ [.verify, .makeTorrent])
  else .inr (s, a.contents, evs ++ [.verify])

/-- The torrent-artifact stage of `publicTorrent` (lines 377-425): make the
artifact when absent, then verify and possibly re-make it. -/
def ensureTorrentStep (env : Env) (s : FolderState) :
    RunResult ⊕ (FolderState × Str × List Event) :=
  match s.artifact with
  | none =>
    match env.make with
    | .error .small => .inl ⟨.tooSmall, s, [.makeTorrent]⟩
    | .error .other => .inl ⟨.failed, s, [.makeTorrent]⟩
    | .ok a => verifyPhase env { s with artifact := some a } a [.makeTorrent]
  | some a => verifyPhase env s a []

/-- Line 426-429: attach the cover image to the metadata when one exists. -/
def withCover (env : Env) (metadata : Values) : Values :=
  match env.coverImage with
  | some c => vset metadata coverKey c
  | none => metadata

/-- Lines 437-441: the marker write keyed on the id returned by
`PublishTorrent` — the `published` marker records a non-empty id, while an
empty id merely touches the `existing` marker. -/
def markState (id : Str) (s : FolderState) : FolderState :=
  if !id.isEmpty then { s with publishedMarker := some id }
  else { s with existingMarker := some [] }

/-- Classification of the tail of a successful `PublishTorrent` call from
the result of the `downloadPublishedTorrent` it ends with. -/
def finishPublish (id : Str) (dres : Except DLErr Unit × FolderState × List Event)
    (evs : List Event) : RunResult :=
  match dres with
  | (.ok _, s3, evs2) => ⟨.published id, s3, evs ++ [.publish] ++ evs2⟩
  | (.error .nilClient, s3, evs2) => ⟨.panicked, s3, evs ++ [.publish] ++ evs2⟩
  | (.error _, s3, evs2) => ⟨.failed, s3, evs ++ [.publish] ++ evs2⟩

/-- Lines 430-451: the `PublishTorrent` call, the marker write keyed on the
returned id, the folder move, and the download/add tail. -/
def publishStep (cfg : Config) (env : Env) (metadata : Values) (s : FolderState)
    (tc : Str) (evs : List Event) : RunResult :=
  match env.publishResult tc (withCover env metadata) with
  | .dryRun => ⟨.dryRunReady, moveIfNeeded cfg s, evs ++ [.publish]⟩
  | .err => ⟨.failed, s, evs ++ [.publish]⟩
  | .ok id =>
    finishPublish id
      (downloadPublishedTorrent cfg env (moveIfNeeded cfg (markState id s))) evs

/-- Lines 289-300: resolve the metadata file (parse it when present, fail
when absent but required, start empty otherwise). -/
def metaOf (cfg : Config) (env : Env) (mfile : Option Str) : Except Outcome Values :=
  match mfile with
  | some contents =>
    match parseMetadataFile env.decode cfg.metaArrayKeys contents with
    | .error _ => .error .invalidMetadata
    | .ok m => .ok m
  | none => if cfg.mustMetadataFile then .error .noMetadata else .ok []

/-- Lines 301-304: caller-supplied fields replace same-named parsed fields,
then the array-keys list is stored under its reserved key. -/
def fullMeta (cfg : Config) (m : Values) : Values :=
  vassign (cfg.otherFields.foldl (fun m p => vassign m p.1 p.2) m)
    arrayKeysKey cfg.metaArrayKeys

/-- Line 308-312: the must-tag filter
(`mustTags != nil && !ContainsFunc(mustTags, tags-contains)`). -/
def tagCheckFails (cfg : Config) (metadata : Values) : Bool :=
  match cfg.mustTags with
  | none => false
  | some ts => !(ts.any fun t => (vgetAll metadata tagsKey).contains t)

/-- Lines 313-340: attach resolved extra images and the dry-run indicator. -/
def effectiveMeta (cfg : Config) (env : Env) (m : Values) : Values :=
  let md :=
    if !env.images.isEmpty then vassign (fullMeta cfg m) imagesKey env.images
    else fullMeta cfg m
  if cfg.dryRun then vset md dryRunKey ('1' :: []) else md

/-- Lines 342-451 of `publicTorrent`: everything after the up-front guards —
the two marker short-circuits, the existing check, the artifact stage and the
publish call. -/
def finishAlready (dres : Except DLErr Unit × FolderState × List Event) : RunResult :=
  match dres with
  | (.ok _, s2, evs) => ⟨.alreadyPublished, s2, evs⟩
  | (.error .nilClient, s2, evs) => ⟨.panicked, s2, evs⟩
  | (.error _, s2, evs) => ⟨.failed, s2, evs⟩

def afterGuards (cfg : Config) (env : Env) (s : FolderState) (metadata : Values) :
    RunResult :=
  if s.publishedMarker.isSome then
    finishAlready (downloadPublishedTorrent cfg env (moveIfNeeded cfg s))
  else if s.existingMarker.isSome then ⟨.existing, s, []⟩
  else
    match existingSearchStep cfg env metadata s with
    | .inl r => r
    | .inr (s1, evs1) =>
      match ensureTorrentStep env s1 with
      | .inl r => ⟨r.outcome, r.state, evs1 ++ r.events⟩
      | .inr (s2, tc, evs2) => publishStep cfg env metadata s2 tc (evs1 ++ evs2)

/-- `publicTorrent` of `src/cmd/publish/publish.go` (lines 270-452): one
content folder, one site, one run. -/
def publicTorrent (cfg : Config) (env : Env) (s : FolderState) : RunResult :=
  if cfg.moveOk && (s.relocated || s.targetBlocked) then ⟨.pathConflict, s, []⟩
  else if cfg.mapperConfigured && !env.mapperMatches then ⟨.mapperFail, s, []⟩
  else
    match metaOf cfg env s.metadataFile with
    | .error o => ⟨o, s, []⟩
    | .ok m =>
      if vget (fullMeta cfg m) titleKey = [] then ⟨.noTitle, s, []⟩
      else if tagCheckFails cfg (fullMeta cfg m) then ⟨.tagMismatch, s, []⟩
      else afterGuards cfg env s (effectiveMeta cfg env m)

/-! ### Helper lemmas -/

theorem vget_vset_self (m : Values) (k : Str) (v : Str) :
    vget (vset m k v) k = v := by
  simp [vget, vgetAll, vset, vlookup_vassign_self]

theorem vget_vset_ne (m : Values) (k k' : Str) (v : Str) (h : k' ≠ k) :
    vget (vset m k' v) k = vget m k := by
  simp [vget, vgetAll, vset, vlookup_vassign_ne m k k' [v] h]

/-- Whether an `Except` is a success. -/
def isOkE : Except ε α → Bool
  | .ok _ => true
  | .error _ => false

theorem moveIfNeeded_fields (cfg : Config) (s : FolderState) :
    (moveIfNeeded cfg s).metadataFile = s.metadataFile ∧
    (moveIfNeeded cfg s).publishedMarker = s.publishedMarker ∧
    (moveIfNeeded cfg s).existingMarker = s.existingMarker ∧
    (moveIfNeeded cfg s).cachedTorrent = s.cachedTorrent ∧
    (moveIfNeeded cfg s).artifact = s.artifact ∧
    (moveIfNeeded cfg s).targetBlocked = s.targetBlocked := by
  unfold moveIfNeeded
  split <;> simp

theorem moveIfNeeded_of_noMove (cfg : Config) (s : FolderState)
    (h : cfg.moveOk = false) : moveIfNeeded cfg s = s := by
  simp [moveIfNeeded, h]

theorem addPhase_state (cfg : Config) (env : Env) (s : FolderState) (evs : List Event) :
    (addPhase cfg env s evs).2.1 = s := by
  unfold addPhase
  split
  · rfl
  · split
    · rfl
    · split <;> rfl

theorem addPhase_events (cfg : Config) (env : Env) (s : FolderState) (evs : List Event)
    (e : Event) (he : e ∈ (addPhase cfg env s evs).2.2) : e ∈ evs ∨ e = .clientAdd := by
  unfold addPhase at he
  split at he
  · exact .inl he
  · split at he
    · exact .inl he
    · split at he <;> simp at he <;> rcases he with h | h
      · exact .inl h
      · exact .inr h
      · exact .inl h
      · exact .inr h

/-- `downloadPublishedTorrent` touches no folder field other than the cached
torrent copy. -/
theorem dl_preserves (cfg : Config) (env : Env) (s : FolderState) :
    (downloadPublishedTorrent cfg env s).2.1.metadataFile = s.metadataFile ∧
    (downloadPublishedTorrent cfg env s).2.1.publishedMarker = s.publishedMarker ∧
    (downloadPublishedTorrent cfg env s).2.1.existingMarker = s.existingMarker ∧
    (downloadPublishedTorrent cfg env s).2.1.artifact = s.artifact ∧
    (downloadPublishedTorrent cfg env s).2.1.relocated = s.relocated ∧
    (downloadPublishedTorrent cfg env s).2.1.targetBlocked = s.targetBlocked := by
  unfold downloadPublishedTorrent
  split
  · rw [addPhase_state]; simp
  · split
    · simp
    · split
      · simp
      · split
        · simp
        · rw [addPhase_state]; simp

/-- No event of `downloadPublishedTorrent` is a publish, search, make or
verify. -/
theorem dl_events (cfg : Config) (env : Env) (s : FolderState) (e : Event)
    (he : e ∈ (downloadPublishedTorrent cfg env s).2.2) :
    e = .download ∨ e = .clientAdd := by
  unfold downloadPublishedTorrent at he
  split at he
  · rcases addPhase_events cfg env _ _ e he with h | h
    · simp at h
    · exact .inr h
  · split at he
    · simp at he
    · split at he
      · simp at he
      · split at he
        · simp at he; exact .inl he
        · rcases addPhase_events cfg env _ _ e he with h | h
          · simp at h; exact .inl h
          · exact .inr h

/-- A successful `downloadPublishedTorrent` implies: the client was present
and accepted the torrent, the path mapper (when configured) matched, and a
cached torrent copy exists afterwards. -/
theorem dl_ok_inv (cfg : Config) (env : Env) (s : FolderState)
    (h : isOkE (downloadPublishedTorrent cfg env s).1 = true) :
    cfg.clientRequested = true ∧ env.addResult = .ok () ∧
    (cfg.mapperConfigured && !env.mapperMatches) = false ∧
    (downloadPublishedTorrent cfg env s).2.1.cachedTorrent.isSome = true := by
  unfold downloadPublishedTorrent addPhase at *
  repeat' split at h
  all_goals try simp_all [isOkE]
  all_goals split <;> simp_all

/-- With a cached torrent copy, a present client that accepts the torrent,
and a matching mapper, `downloadPublishedTorrent` succeeds without touching
the folder and with a single client-add call. -/
theorem dl_cached_ok (cfg : Config) (env : Env) (s : FolderState) (c : Str)
    (hc : s.cachedTorrent = some c) (hcl : cfg.clientRequested = true)
    (hadd : env.addResult = .ok ())
    (hmap : (cfg.mapperConfigured && !env.mapperMatches) = false) :
    downloadPublishedTorrent cfg env s = (.ok (), s, [.clientAdd]) := by
  unfold downloadPublishedTorrent
  rw [hc]
  unfold addPhase
  rw [hmap, hcl, hadd]
  simp

/-- When the existing-check step lets the pipeline continue, it has not
changed the folder and has at most performed the search call. -/
theorem search_inr (cfg : Config) (env : Env) (md : Values) (s s' : FolderState)
    (evs : List Event) (h : existingSearchStep cfg env md s = .inr (s', evs)) :
    s' = s ∧ ∀ e ∈ evs, e = Event.search := by
  unfold existingSearchStep at h
  repeat' split at h
  all_goals try simp_all
  all_goals rcases h with ⟨h1, h2⟩
  all_goals subst h2
  all_goals simp

theorem finishAlready_events (dres : Except DLErr Unit × FolderState × List Event) :
    (finishAlready dres).events = dres.2.2 := by
  rcases dres with ⟨ex, s2, evs⟩
  rcases ex with d | u
  · cases d <;> rfl
  · rfl

theorem finishAlready_state (dres : Except DLErr Unit × FolderState × List Event) :
    (finishAlready dres).state = dres.2.1 := by
  rcases dres with ⟨ex, s2, evs⟩
  rcases ex with d | u
  · cases d <;> rfl
  · rfl

theorem finishAlready_outcome_ok (dres : Except DLErr Unit × FolderState × List Event)
    (h : isOkE dres.1 = true) : (finishAlready dres).outcome = .alreadyPublished := by
  rcases dres with ⟨ex, s2, evs⟩
  rcases ex with d | u
  · simp [isOkE] at h
  · rfl

theorem finishPublish_events (id : Str) (dres : Except DLErr Unit × FolderState × List Event)
    (evs : List Event) :
    (finishPublish id dres evs).events = evs ++ [Event.publish] ++ dres.2.2 := by
  rcases dres with ⟨ex, s2, evs2⟩
  rcases ex with d | u
  · cases d <;> rfl
  · rfl

theorem finishPublish_state (id : Str) (dres : Except DLErr Unit × FolderState × List Event)
    (evs : List Event) : (finishPublish id dres evs).state = dres.2.1 := by
  rcases dres with ⟨ex, s2, evs2⟩
  rcases ex with d | u
  · cases d <;> rfl
  · rfl

theorem publishStep_events (cfg : Config) (env : Env) (md : Values)
    (s : FolderState) (tc : Str) (evs : List Event) (e : Event)
    (he : e ∈ (publishStep cfg env md s tc evs).events) :
    e ∈ evs ∨ e = Event.publish ∨ e = Event.download ∨ e = Event.clientAdd := by
  unfold publishStep at he
  split at he
  · simp at he
    rcases he with h | h
    · exact .inl h
    · exact .inr (.inl h)
  · simp at he
    rcases he with h | h
    · exact .inl h
    · exact .inr (.inl h)
  · rename_i id
    rw [finishPublish_events] at he
    simp at he
    rcases he with h | h | h
    · exact .inl h
    · exact .inr (.inl h)
    · rcases dl_events cfg env _ e h with h' | h'
      · exact .inr (.inr (.inl h'))
      · exact .inr (.inr (.inr h'))

theorem markState_artifact (id : Str) (s : FolderState) :
    (markState id s).artifact = s.artifact := by
  unfold markState
  split <;> rfl

theorem publishStep_artifact (cfg : Config) (env : Env) (md : Values)
    (s : FolderState) (tc : Str) (evs : List Event) :
    (publishStep cfg env md s tc evs).state.artifact = s.artifact := by
  unfold publishStep
  split
  · exact (moveIfNeeded_fields cfg s).2.2.2.2.1
  · rfl
  · rename_i id
    rw [finishPublish_state, (dl_preserves cfg env _).2.2.2.1,
      (moveIfNeeded_fields cfg _).2.2.2.2.1, markState_artifact]

theorem publishStep_events_sub (cfg : Config) (env : Env) (md : Values)
    (s : FolderState) (tc : Str) (evs : List Event) (e : Event) (he : e ∈ evs) :
    e ∈ (publishStep cfg env md s tc evs).events := by
  unfold publishStep
  split
  · simp [he]
  · simp [he]
  · rw [finishPublish_events]; simp [he]

/-- When the artifact stage lets the pipeline continue, it has changed no
folder field other than the artifact. -/
theorem ensure_inr_fields (env : Env) (s s2 : FolderState) (tc : Str)
    (evs : List Event) (h : ensureTorrentStep env s = .inr (s2, tc, evs)) :
    s2.metadataFile = s.metadataFile ∧ s2.publishedMarker = s.publishedMarker ∧
    s2.existingMarker = s.existingMarker ∧ s2.cachedTorrent = s.cachedTorrent ∧
    s2.relocated = s.relocated ∧ s2.targetBlocked = s.targetBlocked := by
  unfold ensureTorrentStep verifyPhase at h
  repeat' split at h
  all_goals try simp_all
  all_goals obtain ⟨h1, h2, h3⟩ := h
  all_goals subst h1
  all_goals simp

theorem markState_published_ne (id : Str) (s : FolderState) (h : id ≠ []) :
    (markState id s).publishedMarker = some id := by
  simp [markState, h]

theorem markState_existing_ne (id : Str) (s : FolderState) (h : id ≠ []) :
    (markState id s).existingMarker = s.existingMarker := by
  simp [markState, h]

theorem markState_empty (s : FolderState) :
    (markState [] s).publishedMarker = s.publishedMarker ∧
    (markState [] s).existingMarker = some [] := by
  simp [markState]

/-! ### Claims -/

/-- General shape of a `publicTorrent` run that reaches the marker checks of
line 342 with a `published` marker present: the whole run is the
`downloadPublishedTorrent` re-download path, so its trace can never contain a
publish call, and when that path succeeds the run classifies as
AlreadyPublished with the download path's final state. -/
theorem already_published_run
    (cfg : Config) (env : Env) (s : FolderState) (m : Values) (pid : Str)
    (hpath : (cfg.moveOk && (s.relocated || s.targetBlocked)) = false)
    (hmap : (cfg.mapperConfigured && !env.mapperMatches) = false)
    (hmeta : metaOf cfg env s.metadataFile = .ok m)
    (htitle : vget (fullMeta cfg m) titleKey ≠ [])
    (htags : tagCheckFails cfg (fullMeta cfg m) = false)
    (hmark : s.publishedMarker = some pid) :
    Event.publish ∉ (publicTorrent cfg env s).events ∧
    (isOkE (downloadPublishedTorrent cfg env (moveIfNeeded cfg s)).1 = true →
      (publicTorrent cfg env s).outcome = .alreadyPublished ∧
      (publicTorrent cfg env s).state =
        (downloadPublishedTorrent cfg env (moveIfNeeded cfg s)).2.1) := by
  have hred : publicTorrent cfg env s =
      finishAlready (downloadPublishedTorrent cfg env (moveIfNeeded cfg s)) := by
    simp [publicTorrent, afterGuards, hpath, hmap, hmeta, htitle, htags, hmark]
  constructor
  · intro hmem
    rw [hred, finishAlready_events] at hmem
    rcases dl_events cfg env (moveIfNeeded cfg s) Event.publish hmem with h | h <;> cases h
  · intro hok
    rw [hred]
    exact ⟨finishAlready_outcome_ok _ hok, finishAlready_state _⟩

/-- C1.  With a `published` marker present and the run reaching the marker
check of line 342 (hypotheses `hpath`-`htags`), the pipeline never invokes
the site's `PublishTorrent`, and when the republish-safe re-download path
succeeds it classifies as AlreadyPublished; running the pipeline a second
time on the resulting folder (no relocation configured) again classifies as
AlreadyPublished and again performs no publish call — so two runs on an
already-published item call the publish API zero times and agree on the
terminal classification. -/
theorem c1_already_published_idempotent
    (cfg : Config) (env : Env) (s : FolderState) (m : Values) (pid : Str)
    (hpath : (cfg.moveOk && (s.relocated || s.targetBlocked)) = false)
    (hmap : (cfg.mapperConfigured && !env.mapperMatches) = false)
    (hmeta : metaOf cfg env s.metadataFile = .ok m)
    (htitle : vget (fullMeta cfg m) titleKey ≠ [])
    (htags : tagCheckFails cfg (fullMeta cfg m) = false)
    (hmark : s.publishedMarker = some pid) :
    Event.publish ∉ (publicTorrent cfg env s).events ∧
    (isOkE (downloadPublishedTorrent cfg env (moveIfNeeded cfg s)).1 = true →
      (publicTorrent cfg env s).outcome = .alreadyPublished ∧
      (cfg.moveOk = false →
        (publicTorrent cfg env (publicTorrent cfg env s).state).outcome =
          .alreadyPublished ∧
        Event.publish ∉ (publicTorrent cfg env (publicTorrent cfg env s).state).events)) := by
  have h1 := already_published_run cfg env s m pid hpath hmap hmeta htitle htags hmark
  refine ⟨h1.1, fun hok => ⟨(h1.2 hok).1, fun hmv => ?_⟩⟩
  have hst : (publicTorrent cfg env s).state =
      (downloadPublishedTorrent cfg env (moveIfNeeded cfg s)).2.1 := (h1.2 hok).2
  rw [moveIfNeeded_of_noMove cfg s hmv] at hst hok
  have hpres := dl_preserves cfg env s
  have hinv := dl_ok_inv cfg env s hok
  set s2 := (downloadPublishedTorrent cfg env s).2.1 with hs2
  rcases Option.isSome_iff_exists.mp hinv.2.2.2 with ⟨c, hc⟩
  have hpath2 : (cfg.moveOk && (s2.relocated || s2.targetBlocked)) = false := by
    simp [hmv]
  have hmeta2 : metaOf cfg env s2.metadataFile = .ok m := by
    rw [hpres.1]; exact hmeta
  have hmark2 : s2.publishedMarker = some pid := by
    rw [hpres.2.1]; exact hmark
  have h2 := already_published_run cfg env s2 m pid hpath2 hmap hmeta2 htitle htags hmark2
  have hdl2 : downloadPublishedTorrent cfg env (moveIfNeeded cfg s2) =
      (.ok (), s2, [.clientAdd]) := by
    rw [moveIfNeeded_of_noMove cfg s2 hmv]
    exact dl_cached_ok cfg env s2 c hc hinv.1 hinv.2.1 hinv.2.2.1
  have hok2 : isOkE (downloadPublishedTorrent cfg env (moveIfNeeded cfg s2)).1 = true := by
    rw [hdl2]; rfl
  rw [hst]
  exact ⟨(h2.2 hok2).1, h2.1⟩

def c1cfg : Config :=
  ⟨false, false, false, false, false, true, none, [], [(titleKey, [['t']])]⟩

def c1env : Env :=
  ⟨fun _ => none, true, [], none, fun _ => .ok [], .ok ⟨['T'], 10⟩,
    fun _ => true, fun _ => .ok 5, fun _ _ => .ok ['9'], fun _ => .ok ['D'], .ok ()⟩

def c1s : FolderState := ⟨none, some ['1'], none, none, none, false, false⟩

/-- C1 witness: a concrete already-published folder, run twice: both runs
classify AlreadyPublished and neither trace contains a publish call. -/
theorem c1_witness :
    Event.publish ∉ (publicTorrent c1cfg c1env c1s).events ∧
    (publicTorrent c1cfg c1env c1s).outcome = .alreadyPublished ∧
    (publicTorrent c1cfg c1env (publicTorrent c1cfg c1env c1s).state).outcome =
      .alreadyPublished ∧
    Event.publish ∉ (publicTorrent c1cfg c1env (publicTorrent c1cfg c1env c1s).state).events := by
  have h := c1_already_published_idempotent c1cfg c1env c1s [] ['1'] (by decide)
    (by decide) rfl (by decide) (by decide) rfl
  have hok : isOkE (downloadPublishedTorrent c1cfg c1env (moveIfNeeded c1cfg c1s)).1 = true := by
    decide
  exact ⟨h.1, (h.2 hok).1, ((h.2 hok).2 rfl).1, ((h.2 hok).2 rfl).2⟩

/-- C2.  For a content item with a pre-existing torrent artifact (and a run
that reaches the artifact stage: guards pass, no marker is set, the existing
check does not fire, and the artifact bytes parse), the pipeline re-makes
the artifact if and only if the artifact is obsolete per line 411 —
`tinfo.Verify` fails or the newest content mtime it returns is strictly
newer than the artifact file's mtime (`staleArtifact`).  When verification
succeeds and the artifact is at least as new as the content, the artifact is
reused unchanged; when it is obsolete and the re-make succeeds, the final
folder carries the freshly made artifact in its place. -/
theorem c2_artifact_rebuilt_iff_stale
    (cfg : Config) (env : Env) (s : FolderState) (m : Values) (a : Artifact)
    (s1 : FolderState) (evs1 : List Event)
    (hpath : (cfg.moveOk && (s.relocated || s.targetBlocked)) = false)
    (hmap : (cfg.mapperConfigured && !env.mapperMatches) = false)
    (hmeta : metaOf cfg env s.metadataFile = .ok m)
    (htitle : vget (fullMeta cfg m) titleKey ≠ [])
    (htags : tagCheckFails cfg (fullMeta cfg m) = false)
    (hpub : s.publishedMarker = none)
    (hex : s.existingMarker = none)
    (hsearch : existingSearchStep cfg env (effectiveMeta cfg env m) s = .inr (s1, evs1))
    (hart : s.artifact = some a)
    (hparse : env.parseTorrent a.contents = true) :
    (Event.makeTorrent ∈ (publicTorrent cfg env s).events ↔ staleArtifact env a = true) ∧
    (staleArtifact env a = false →
      (publicTorrent cfg env s).state.artifact = some a) ∧
    (∀ a2, staleArtifact env a = true → env.make = .ok a2 →
      (publicTorrent cfg env s).state.artifact = some a2) := by
  obtain ⟨hs1, hevs1⟩ := search_inr cfg env (effectiveMeta cfg env m) s s1 evs1 hsearch
  rw [hs1] at hsearch
  have hred : publicTorrent cfg env s =
      match ensureTorrentStep env s with
      | .inl r => ⟨r.outcome, r.state, evs1 ++ r.events⟩
      | .inr (s2, tc, evs2) =>
        publishStep cfg env (effectiveMeta cfg env m) s2 tc (evs1 ++ evs2) := by
    simp [publicTorrent, afterGuards, hpath, hmap, hmeta, htitle, htags, hpub, hex, hsearch]
  have hens : ensureTorrentStep env s = verifyPhase env s a [] := by
    simp [ensureTorrentStep, hart]
  rw [hens] at hred
  cases hstale : staleArtifact env a with
  | false =>
    have hver : verifyPhase env s a [] = .inr (s, a.contents, [.verify]) := by
      simp [verifyPhase, hparse, hstale]
    rw [hver] at hred
    refine ⟨⟨fun hmem => ?_, fun hst => ?_⟩, fun _ => ?_, fun a2 hst hmk => ?_⟩
    · rw [hred] at hmem
      rcases publishStep_events cfg env _ s a.contents (evs1 ++ [.verify])
          Event.makeTorrent hmem with h | h | h | h
      · rcases List.mem_append.mp h with h' | h'
        · cases hevs1 Event.makeTorrent h'
        · simp at h'
      · cases h
      · cases h
      · cases h
    · simp at hst
    · rw [hred, publishStep_artifact, hart]
    · simp at hst
  | true =>
    rcases hmake : env.make with d | a2
    · cases d with
      | small =>
        have hver : verifyPhase env s a [] =
            .inl ⟨.tooSmall, s, [.verify, .makeTorrent]⟩ := by
          simp [verifyPhase, hparse, hstale, hmake]
        rw [hver] at hred
        refine ⟨⟨fun _ => rfl, fun _ => ?_⟩, fun hst => ?_, fun a2 _ hmk => ?_⟩
        · rw [hred]; simp
        · simp at hst
        · exact Except.noConfusion hmk
      | other =>
        have hver : verifyPhase env s a [] =
            .inl ⟨.failed, s, [.verify, .makeTorrent]⟩ := by
          simp [verifyPhase, hparse, hstale, hmake]
        rw [hver] at hred
        refine ⟨⟨fun _ => rfl, fun _ => ?_⟩, fun hst => ?_, fun a2 _ hmk => ?_⟩
        · rw [hred]; simp
        · simp at hst
        · exact Except.noConfusion hmk
    · have hver : verifyPhase env s a [] =
          .inr ({ s with artifact := some a2 }, a2.contents, [.verify, .makeTorrent]) := by
        simp [verifyPhase, hparse, hstale, hmake]
      rw [hver] at hred
      refine ⟨⟨fun _ => rfl, fun _ => ?_⟩, fun hst => ?_, fun a2' _ hmk => ?_⟩
      · rw [hred]
        exact publishStep_events_sub cfg env _ _ a2.contents _ Event.makeTorrent (by simp)
      · simp at hst
      · injection hmk with h
        subst h
        rw [hred, publishStep_artifact]

def c2cfg : Config :=
  ⟨false, false, false, false, false, true, none, [], [(titleKey, [['t']])]⟩

def c2env : Env :=
  ⟨fun _ => none, true, [], none, fun _ => .ok [], .ok ⟨['N'], 9⟩,
    fun _ => true, fun _ => .ok 5, fun _ _ => .ok ['9'], fun _ => .ok ['D'], .ok ()⟩

def c2s : FolderState := ⟨none, none, none, none, some ⟨['O'], 3⟩, false, false⟩

def c2sFresh : FolderState := ⟨none, none, none, none, some ⟨['O'], 7⟩, false, false⟩

/-- C2 witness: with content newest-mtime 5, an artifact of mtime 3 is
re-made (the fresh one replaces it) while an artifact of mtime 7 is reused
unchanged with no make call. -/
theorem c2_witness :
    (Event.makeTorrent ∈ (publicTorrent c2cfg c2env c2s).events ∧
      (publicTorrent c2cfg c2env c2s).state.artifact = some ⟨['N'], 9⟩) ∧
    (Event.makeTorrent ∉ (publicTorrent c2cfg c2env c2sFresh).events ∧
      (publicTorrent c2cfg c2env c2sFresh).state.artifact = some ⟨['O'], 7⟩) := by
  have h1 := c2_artifact_rebuilt_iff_stale c2cfg c2env c2s [] ⟨['O'], 3⟩ c2s []
    (by decide) (by decide) rfl (by decide) (by decide) rfl rfl rfl rfl rfl
  have h2 := c2_artifact_rebuilt_iff_stale c2cfg c2env c2sFresh [] ⟨['O'], 7⟩ c2sFresh []
    (by decide) (by decide) rfl (by decide) (by decide) rfl rfl rfl rfl rfl
  refine ⟨⟨h1.1.mpr (by decide), h1.2.2 ⟨['N'], 9⟩ (by decide) rfl⟩,
    ⟨fun hmem => ?_, h2.2.1 (by decide)⟩⟩
  have := h2.1.mp hmem
  simp [staleArtifact, c2env] at this

/-- C3 (amended).  For every successful `PublishTorrent` call: when the
returned id is non-empty the pipeline records the `published` marker
containing that id, and the marker is in the final folder state whatever the
later download/cache and add-to-client oracles answer — i.e. it is written
before those steps; when the returned id is empty, no `published` marker is
written at all: the pipeline instead touches an empty `existing` marker.
The hypotheses say the run reaches the publish call of line 430. -/
theorem c3_published_marker_before_download
    (cfg : Config) (env : Env) (s : FolderState) (m : Values)
    (s1 : FolderState) (evs1 : List Event) (s2 : FolderState) (tc : Str)
    (evs2 : List Event) (id : Str)
    (hpath : (cfg.moveOk && (s.relocated || s.targetBlocked)) = false)
    (hmap : (cfg.mapperConfigured && !env.mapperMatches) = false)
    (hmeta : metaOf cfg env s.metadataFile = .ok m)
    (htitle : vget (fullMeta cfg m) titleKey ≠ [])
    (htags : tagCheckFails cfg (fullMeta cfg m) = false)
    (hpub : s.publishedMarker = none)
    (hex : s.existingMarker = none)
    (hsearch : existingSearchStep cfg env (effectiveMeta cfg env m) s = .inr (s1, evs1))
    (hens : ensureTorrentStep env s1 = .inr (s2, tc, evs2))
    (hid : env.publishResult tc (withCover env (effectiveMeta cfg env m)) = .ok id) :
    Event.publish ∈ (publicTorrent cfg env s).events ∧
    (id ≠ [] → (publicTorrent cfg env s).state.publishedMarker = some id) ∧
    (id = [] → (publicTorrent cfg env s).state.publishedMarker = none ∧
      (publicTorrent cfg env s).state.existingMarker = some []) := by
  obtain ⟨hs1, hevs1⟩ := search_inr cfg env (effectiveMeta cfg env m) s s1 evs1 hsearch
  rw [hs1] at hsearch hens
  have hred : publicTorrent cfg env s =
      publishStep cfg env (effectiveMeta cfg env m) s2 tc (evs1 ++ evs2) := by
    simp [publicTorrent, afterGuards, hpath, hmap, hmeta, htitle, htags, hpub, hex,
      hsearch, hens]
  have hps : publishStep cfg env (effectiveMeta cfg env m) s2 tc (evs1 ++ evs2) =
      finishPublish id
        (downloadPublishedTorrent cfg env (moveIfNeeded cfg (markState id s2)))
        (evs1 ++ evs2) := by
    simp [publishStep, hid]
  rw [hps] at hred
  refine ⟨?_, fun hne => ?_, fun he => ?_⟩
  · rw [hred, finishPublish_events]
    simp
  · rw [hred, finishPublish_state, (dl_preserves cfg env _).2.1,
      (moveIfNeeded_fields cfg _).2.1, markState_published_ne id s2 hne]
  · subst he
    constructor
    · rw [hred, finishPublish_state, (dl_preserves cfg env _).2.1,
        (moveIfNeeded_fields cfg _).2.1, (markState_empty s2).1,
        (ensure_inr_fields env s s2 tc evs2 hens).2.1, hpub]
    · rw [hred, finishPublish_state, (dl_preserves cfg env _).2.2.1,
        (moveIfNeeded_fields cfg _).2.2.1, (markState_empty s2).2]

def c3cfg : Config :=
  ⟨false, false, false, false, false, true, none, [], [(titleKey, [['t']])]⟩

def c3env : Env :=
  ⟨fun _ => none, true, [], none, fun _ => .ok [], .ok ⟨['N'], 9⟩,
    fun _ => true, fun _ => .ok 2, fun _ _ => .ok ['9'], fun _ => .error (), .ok ()⟩

def c3s : FolderState := ⟨none, none, none, none, some ⟨['O'], 7⟩, false, false⟩

/-- C3 witness: a concrete publish returning id `"9"` whose artifact
download then fails still leaves the `published` marker with `"9"` on disk —
the marker write precedes the download step. -/
theorem c3_witness :
    Event.publish ∈ (publicTorrent c3cfg c3env c3s).events ∧
    (publicTorrent c3cfg c3env c3s).state.publishedMarker = some ['9'] ∧
    (publicTorrent c3cfg c3env c3s).outcome = .failed := by
  have h := c3_published_marker_before_download c3cfg c3env c3s [] c3s [] c3s
    ['O'] [.verify] ['9'] (by decide) (by decide) rfl (by decide) (by decide)
    rfl rfl rfl rfl rfl
  exact ⟨h.1, h.2.1 (by decide), by decide⟩

def c3envDup : Env :=
  ⟨fun _ => none, true, [], none, fun _ => .ok [], .ok ⟨['N'], 9⟩,
    fun _ => true, fun _ => .ok 2, fun _ _ => .ok [], fun _ => .ok ['D'], .ok ()⟩

/-- C3 counterexample: the publish call succeeds returning an empty id
("published but considered a duplicate by the site"), yet the final folder
carries NO `published` marker at all — the code touches the `existing`
marker instead, so the claim's "records the 'published' marker ... (the
recorded id may be empty)" is false on this input. -/
theorem c3_counterexample :
    c3envDup.publishResult = (fun _ _ => .ok []) ∧
    Event.publish ∈ (publicTorrent c3cfg c3envDup c3s).events ∧
    (publicTorrent c3cfg c3envDup c3s).state.publishedMarker = none ∧
    (publicTorrent c3cfg c3envDup c3s).state.existingMarker = some [] :=
  ⟨rfl, by decide, by decide, by decide⟩

def c4cfg : Config :=
  ⟨false, false, false, false, false, false, none, [], [(titleKey, [['t']])]⟩

def c4env : Env :=
  ⟨fun _ => none, true, [], none, fun _ => .ok [], .ok ⟨['N'], 9⟩,
    fun _ => true, fun _ => .ok 2, fun _ _ => .ok ['9'], fun _ => .ok ['D'], .ok ()⟩

def c4sFresh : FolderState := ⟨none, none, none, none, some ⟨['O'], 7⟩, false, false⟩

def c4sMarked : FolderState := ⟨none, some ['1'], none, none, none, false, false⟩

/-- C4 (code bug).  With no client requested (`--client` unset, so the
client interface value is nil), `downloadPublishedTorrent` still reaches its
unconditional `clientInstance.AddTorrent` call, which in Go panics on the
nil interface: the run cannot complete without invoking the client
operation.  This holds on the fresh-publish path (after the marker write and
the artifact download) and on the AlreadyPublished re-download path alike,
contradicting the spec's "optional add-to-client" / "re-add to client if
requested". -/
theorem c4_nil_client_add_is_unconditional :
    c4cfg.clientRequested = false ∧
    (publicTorrent c4cfg c4env c4sFresh).outcome = .panicked ∧
    (publicTorrent c4cfg c4env c4sFresh).state.publishedMarker = some ['9'] ∧
    Event.download ∈ (publicTorrent c4cfg c4env c4sFresh).events ∧
    (publicTorrent c4cfg c4env c4sMarked).outcome = .panicked := by
  decide

theorem indexOfSublist_bound (l pat : Str) (i : Nat)
    (h : indexOfSublist l pat = some i) :
    pat.isPrefixOf (l.drop i) = true ∧ i + pat.length ≤ l.length := by
  induction l generalizing i with
  | nil =>
    unfold indexOfSublist at h
    split at h
    · rename_i hp
      injection h with h'
      subst h'
      simp [hp]
    · cases h
  | cons c rest ih =>
    unfold indexOfSublist at h
    split at h
    · rename_i hp
      injection h with h'
      subst h'
      refine ⟨by simpa using hp, ?_⟩
      have := List.IsPrefix.length_le (List.isPrefixOf_iff_prefix.mp hp)
      simpa using this
    · cases hj : indexOfSublist rest pat with
      | none => rw [hj] at h; cases h
      | some j =>
        rw [hj] at h
        simp at h
        subst h
        obtain ⟨h1, h2⟩ := ih j hj
        refine ⟨by simpa using h1, ?_⟩
        simp only [List.length_cons]
        omega

/-- C10.  `parseMetadataFile` rejects with the invalid-format error every
file shorter than 10 bytes, and every file whose front-matter block before
the first closing delimiter is shorter than 3 bytes (a correctly delimited
empty block included), whatever the decoder would say. -/
theorem c10_short_inputs_rejected (decode : Decoder) (arrayKeys : List Str)
    (contents : Str) :
    (contents.length < 10 →
      parseMetadataFile decode arrayKeys contents = .error .invalidFormat) ∧
    (∀ i, indexOfSublist (contents.drop openDeli.length) closeDeli = some i → i < 3 →
      parseMetadataFile decode arrayKeys contents = .error .invalidFormat) := by
  constructor
  · intro h
    unfold parseMetadataFile
    rw [if_pos (Or.inl h)]
  · intro i hidx hlt
    by_cases hcond : contents.length < 10 ∨ ¬ openDeli.isPrefixOf contents
    · unfold parseMetadataFile
      rw [if_pos hcond]
    · unfold parseMetadataFile
      rw [if_neg hcond]
      simp [hidx, hlt]

def c10dec : Decoder := fun _ => some []

/-- C10 witness: the 1-byte file and the well-delimited file whose block
`"a:"` is only 2 bytes are both rejected as invalid format, under a decoder
that accepts everything. -/
theorem c10_witness :
    parseMetadataFile c10dec [] ['x'] = .error .invalidFormat ∧
    parseMetadataFile c10dec []
      ('-' :: '-' :: '-' :: '\n' :: 'a' :: ':' :: '\n' :: '-' :: '-' :: '-' :: '\n' :: 'x' :: []) =
      .error .invalidFormat :=
  ⟨(c10_short_inputs_rejected c10dec [] ['x']).1 (by decide),
    (c10_short_inputs_rejected c10dec []
      ('-' :: '-' :: '-' :: '\n' :: 'a' :: ':' :: '\n' :: '-' :: '-' :: '-' :: '\n' :: 'x' :: [])).2
      2 (by decide) (by decide)⟩

/-- C6 (amended).  `parseMetadataFile` fails with the invalid-format error
when the file does not begin with the front-matter delimiter line, when no
closing delimiter follows, and also — the amendment — when the enclosed
block before the first closing delimiter is shorter than 3 bytes (and when
the whole file is shorter than 10 bytes, which the other conditions already
subsume once a block of length ≥ 3 exists); only for a well-delimited block
of at least 3 bytes does it decode the block, failing with the decode error
when the decoder rejects it and otherwise producing the mapping that stores
the trailing free text (trimmed) under the reserved `_text` key and the raw
block under the reserved `_meta` key. -/
theorem c6_parse_error_taxonomy (decode : Decoder) (arrayKeys : List Str)
    (contents : Str) :
    (¬ openDeli.isPrefixOf contents →
      parseMetadataFile decode arrayKeys contents = .error .invalidFormat) ∧
    (indexOfSublist (contents.drop openDeli.length) closeDeli = none →
      parseMetadataFile decode arrayKeys contents = .error .invalidFormat) ∧
    (∀ i, openDeli.isPrefixOf contents →
      indexOfSublist (contents.drop openDeli.length) closeDeli = some i → 3 ≤ i →
      (decode ((contents.drop openDeli.length).take i) = none →
        parseMetadataFile decode arrayKeys contents = .error .decodeError) ∧
      (∀ raw, decode ((contents.drop openDeli.length).take i) = some raw →
        ∃ m, parseMetadataFile decode arrayKeys contents = .ok m ∧
          vget m metaKey = (contents.drop openDeli.length).take i ∧
          vget m textKey =
            goTrimSpace ((contents.drop openDeli.length).drop (i + closeDeli.length)))) := by
  refine ⟨fun h => ?_, fun h => ?_, fun i hpre hidx hge => ?_⟩
  · unfold parseMetadataFile
    rw [if_pos (Or.inr h)]
  · by_cases hcond : contents.length < 10 ∨ ¬ openDeli.isPrefixOf contents
    · unfold parseMetadataFile
      rw [if_pos hcond]
    · unfold parseMetadataFile
      rw [if_neg hcond]
      simp [h]
  · have hb := indexOfSublist_bound (contents.drop openDeli.length) closeDeli i hidx
    have hp4 : openDeli.length ≤ contents.length :=
      List.IsPrefix.length_le (List.isPrefixOf_iff_prefix.mp hpre)
    have hdroplen : (contents.drop openDeli.length).length =
        contents.length - openDeli.length := List.length_drop openDeli.length contents
    have hlen : ¬ contents.length < 10 := by
      have h5 : closeDeli.length = 5 := by decide
      have h4 : openDeli.length = 4 := by decide
      omega
    have hcond : ¬ (contents.length < 10 ∨ ¬ openDeli.isPrefixOf contents) := by
      intro hc
      rcases hc with hc | hc
      · exact hlen hc
      · exact hc hpre
    have hnlt : ¬ i < 3 := by omega
    constructor
    · intro hdec
      unfold parseMetadataFile
      rw [if_neg hcond]
      simp [hidx, hnlt, hdec]
    · intro raw hdec
      unfold parseMetadataFile
      rw [if_neg hcond]
      simp only [hidx, hnlt, if_false, ite_false, if_neg hnlt]
      rw [hdec]
      refine ⟨_, rfl, ?_, ?_⟩
      · rw [vget_vset_self]
      · rw [vget_vset_ne _ textKey metaKey _ (by decide), vget_vset_self]

def c6dec : Decoder := fun b =>
  if b = 'a' :: ':' :: [] then some [(['a'], .other ['n', 'u', 'l', 'l'])] else none

def c6input : Str := "---\na:\n---\nx".data

/-- C6 counterexample: a file that begins with the opening delimiter,
contains a matching closing delimiter, and whose block the decoder accepts,
is nevertheless rejected as invalid format because the block `"a:"` is
shorter than 3 bytes — so neither the claim's "otherwise produce the
mapping" nor its ParseError clause describes this input. -/
theorem c6_counterexample :
    openDeli.isPrefixOf c6input = true ∧
    indexOfSublist (c6input.drop openDeli.length) closeDeli = some 2 ∧
    (c6dec ((c6input.drop openDeli.length).take 2)).isSome = true ∧
    parseMetadataFile c6dec [] c6input = .error .invalidFormat := by
  decide

def c6decG : Decoder := fun b =>
  if b = 'a' :: ':' :: ' ' :: 'b' :: [] then some [(['a'], .str [' ', 'b'])] else none

def c6goodInput : Str := "---\na: b\n---\nhello".data

/-- C6 witness: on a well-formed file the amended theorem yields the
mapping, with the raw block under `_meta` and the trimmed free text under
`_text`; a malformed prefix input is rejected. -/
theorem c6_witness :
    (∃ m, parseMetadataFile c6decG [] c6goodInput = .ok m ∧
      vget m metaKey = ('a' :: ':' :: ' ' :: 'b' :: []) ∧
      vget m textKey = ('h' :: 'e' :: 'l' :: 'l' :: 'o' :: [])) ∧
    parseMetadataFile c6decG [] ('x' :: 'y' :: []) = .error .invalidFormat := by
  constructor
  · have h := ((c6_parse_error_taxonomy c6decG [] c6goodInput).2.2 4 (by decide)
      (by decide) (by decide)).2 [(['a'], .str [' ', 'b'])] (by decide)
    obtain ⟨m, h1, h2, h3⟩ := h
    refine ⟨m, h1, ?_, ?_⟩
    · rw [h2]; decide
    · rw [h3]; decide
  · exact (c6_parse_error_taxonomy c6decG [] ('x' :: 'y' :: [])).1 (by decide)

theorem vlookup_vset_ne (m : Values) (k k' : Str) (v : Str) (h : k' ≠ k) :
    vlookup (vset m k' v) k = vlookup m k :=
  vlookup_vassign_ne m k k' [v] h

/-- C7.  A metadata field whose (normalised) name is declared array-typed
and whose decoded value is a scalar string is stored as the comma-split,
trimmed sequence of that string; in particular `"a, b,c"` normalises to
`["a","b","c"]`.  (`splitCsv` is modelled from the spec because
`util.SplitCsv` is not under `src/`.) -/
theorem c7_array_key_csv_split (decode : Decoder) (arrayKeys : List Str)
    (contents : Str) (i : Nat) (k v : Str) (m : Values)
    (hpre : openDeli.isPrefixOf contents)
    (hidx : indexOfSublist (contents.drop openDeli.length) closeDeli = some i)
    (hge : 3 ≤ i)
    (hdec : decode ((contents.drop openDeli.length).take i) = some [(k, .str v)])
    (hk : arrayKeys.contains (normalizeKey k) = true)
    (ht : normalizeKey k ≠ textKey)
    (hmk : normalizeKey k ≠ metaKey)
    (hok : parseMetadataFile decode arrayKeys contents = .ok m) :
    vlookup m (normalizeKey k) = some (splitCsv v) ∧
    splitCsv "a, b,c".data = ["a".data, "b".data, "c".data] := by
  have hb := indexOfSublist_bound (contents.drop openDeli.length) closeDeli i hidx
  have hp4 : openDeli.length ≤ contents.length :=
    List.IsPrefix.length_le (List.isPrefixOf_iff_prefix.mp hpre)
  have hdroplen : (contents.drop openDeli.length).length =
      contents.length - openDeli.length := List.length_drop openDeli.length contents
  have hlen : ¬ contents.length < 10 := by
    have h5 : closeDeli.length = 5 := by decide
    have h4 : openDeli.length = 4 := by decide
    omega
  have hcond : ¬ (contents.length < 10 ∨ ¬ openDeli.isPrefixOf contents) := by
    intro hc
    rcases hc with hc | hc
    · exact hlen hc
    · exact hc hpre
  have hnlt : ¬ i < 3 := by omega
  unfold parseMetadataFile at hok
  rw [if_neg hcond] at hok
  simp only [hidx, if_neg hnlt] at hok
  rw [hdec] at hok
  injection hok with hm'
  subst hm'
  constructor
  · rw [vlookup_vset_ne _ _ _ _ (Ne.symm hmk), vlookup_vset_ne _ _ _ _ (Ne.symm ht)]
    have hfold : List.foldl (metaEntry arrayKeys) [] [(k, YamlVal.str v)] =
        metaEntry arrayKeys [] (k, YamlVal.str v) := rfl
    have hme : metaEntry arrayKeys [] (k, YamlVal.str v) =
        vassign [] (normalizeKey k) (splitCsv v) := by
      show (if arrayKeys.contains (normalizeKey k) then
          vassign [] (normalizeKey k) (splitCsv v)
        else vset [] (normalizeKey k) v) = vassign [] (normalizeKey k) (splitCsv v)
      rw [hk]
      rfl
    rw [hfold, hme, vlookup_vassign_self]
  · decide

def c7dec : Decoder := fun b =>
  if b = "tags: a, b,c".data then some [("tags".data, .str "a, b,c".data)] else none

def c7input : Str := "---\ntags: a, b,c\n---\nz".data

/-- C7 witness: parsing a concrete file whose `tags` field (declared
array-typed) holds the scalar `"a, b,c"` yields the sequence
`["a","b","c"]`. -/
theorem c7_witness :
    ∃ m, parseMetadataFile c7dec ["tags".data] c7input = .ok m ∧
      vlookup m "tags".data = some ["a".data, "b".data, "c".data] := by
  rcases hok : parseMetadataFile c7dec ["tags".data] c7input with e | m
  · exfalso
    cases e
    · exact absurd hok (by decide)
    · exact absurd hok (by decide)
  · have h := (c7_array_key_csv_split c7dec ["tags".data] c7input 12 "tags".data
      "a, b,c".data m (by decide) (by decide) (by decide) (by decide) (by decide)
      (by decide) (by decide) hok).1
    have e1 : normalizeKey "tags".data = "tags".data := by decide
    have e2 : splitCsv "a, b,c".data = ["a".data, "b".data, "c".data] := by decide
    rw [e1, e2] at h
    exact ⟨m, rfl, h⟩

/-- C8 (amended).  Key normalisation replaces every single space or tab
character of a metadata field name by one underscore — so a run of `n`
whitespace characters becomes `n` underscores, not one — and in particular
it preserves the name's length. -/
theorem c8_whitespace_per_char (k : Str) :
    normalizeKey k = k.map (fun c => if c = ' ' || c = '\t' then '_' else c) ∧
    (normalizeKey k).length = k.length := by
  have hmain : normalizeKey k =
      k.map (fun c => if c = ' ' || c = '\t' then '_' else c) := by
    unfold normalizeKey
    by_cases h : k.any (fun c => c = ' ' || c = '\t')
    · rw [if_pos h]
      unfold replaceAllChar
      rw [List.map_map]
      apply List.map_congr_left
      intro a _
      by_cases h1 : a = ' ' <;> by_cases h2 : a = '\t' <;> simp [h1, h2]
    · rw [if_neg h]
      have hall : ∀ a ∈ k, ¬ (a = ' ' || a = '\t') = true := by
        intro a ha hc
        exact h (List.any_eq_true.mpr ⟨a, ha, hc⟩)
      calc k = k.map id := by rw [List.map_id]
        _ = k.map (fun c => if c = ' ' || c = '\t' then '_' else c) := by
          apply List.map_congr_left
          intro a ha
          simp [hall a ha]
  exact ⟨hmain, by rw [hmain]; simp⟩

def c8dec : Decoder := fun b =>
  if b = "a  b: x".data then some [("a  b".data, .str "x".data)] else none

def c8input : Str := "---\na  b: x\n---\nz".data

/-- C8 counterexample: the field name `"a  b"` (two consecutive spaces)
normalises to `"a__b"` — one underscore per whitespace character — and the
parsed metadata stores the value under `"a__b"`, not under the claim's
single-underscore `"a_b"`. -/
theorem c8_counterexample :
    normalizeKey "a  b".data = "a__b".data ∧
    "a__b".data ≠ "a_b".data ∧
    parseMetadataFile c8dec [] c8input =
      .ok [("a__b".data, ["x".data]), (textKey, ["z".data]),
        (metaKey, ["a  b: x".data])] := by
  decide

/-- C9 (amended).  The existing-content check re-filters the site's search
results with a whole-word match of the `number` value against each
candidate's name or description, in result order with no further ranking;
the FIRST matching candidate is examined: if its id is non-empty it is taken
as the existing release and the `existing` marker is written with exactly
that id, but if its id is empty the check concludes without a match — later
matching candidates are never considered — and continues publishing; on a
negative result the folder is left untouched, so no marker is written. -/
theorem c9_refilter_first_match
    (cfg : Config) (env : Env) (md : Values) (s : FolderState)
    (ts : List SearchResult)
    (hnum : vget md numberKey ≠ [])
    (hce : cfg.checkExisting = true)
    (hsr : env.search (vget md numberKey) = .ok ts) :
    (∀ t, (ts.find? fun t => wholeWordMatch (vget md numberKey) t.name ||
        wholeWordMatch (vget md numberKey) t.description) = some t → t.id ≠ [] →
      existingSearchStep cfg env md s =
        .inl ⟨.existing, { s with existingMarker := some t.id }, [.search]⟩) ∧
    (∀ t, (ts.find? fun t => wholeWordMatch (vget md numberKey) t.name ||
        wholeWordMatch (vget md numberKey) t.description) = some t → t.id = [] →
      existingSearchStep cfg env md s = .inr (s, [.search])) ∧
    ((ts.find? fun t => wholeWordMatch (vget md numberKey) t.name ||
        wholeWordMatch (vget md numberKey) t.description) = none →
      existingSearchStep cfg env md s = .inr (s, [.search])) := by
  refine ⟨fun t hf hid => ?_, fun t hf hid => ?_, fun hf => ?_⟩
  · simp [existingSearchStep, firstExistingId, hnum, hce, hsr, hf, hid]
  · simp [existingSearchStep, firstExistingId, hnum, hce, hsr, hf, hid]
  · simp [existingSearchStep, firstExistingId, hnum, hce, hsr, hf]

def c9cfg : Config :=
  ⟨false, false, true, false, false, true, none, [], []⟩

def c9md : Values := [(numberKey, ["n7".data])]

def c9s : FolderState := ⟨none, none, none, none, none, false, false⟩

def c9envDup : Env :=
  ⟨fun _ => none, true, [], none,
    fun _ => .ok [⟨[], "n7".data, []⟩, ⟨['5'], "n7".data, []⟩],
    .ok ⟨['N'], 9⟩, fun _ => true, fun _ => .ok 2, fun _ _ => .ok ['9'],
    fun _ => .ok ['D'], .ok ()⟩

/-- C9 counterexample: the first candidate matches the whole-word re-filter
but carries an empty id; the claim says the first matching candidate is
taken as the existing release, yet the code abandons the check entirely —
the step continues the pipeline, no `existing` marker is written, and the
second candidate (matching, non-empty id `"5"`) is never considered. -/
theorem c9_counterexample :
    c9envDup.search "n7".data =
      .ok [⟨[], "n7".data, []⟩, ⟨['5'], "n7".data, []⟩] ∧
    wholeWordMatch "n7".data "n7".data = true ∧
    existingSearchStep c9cfg c9envDup c9md c9s = .inr (c9s, [.search]) := by
  exact ⟨rfl, by decide, by decide⟩

def c9envPos : Env :=
  ⟨fun _ => none, true, [], none, fun _ => .ok [⟨['5'], "x n7 y".data, []⟩],
    .ok ⟨['N'], 9⟩, fun _ => true, fun _ => .ok 2, fun _ _ => .ok ['9'],
    fun _ => .ok ['D'], .ok ()⟩

def c9envNeg : Env :=
  ⟨fun _ => none, true, [], none, fun _ => .ok [⟨['5'], "zn7".data, []⟩],
    .ok ⟨['N'], 9⟩, fun _ => true, fun _ => .ok 2, fun _ _ => .ok ['9'],
    fun _ => .ok ['D'], .ok ()⟩

/-- C9 witness: a whole-word match with non-empty id `"5"` short-circuits to
Existing and writes the marker with `"5"`; a candidate whose name contains
`n7` only as a substring (`"zn7"`) does not match, and the folder is left
without a marker. -/
theorem c9_witness :
    existingSearchStep c9cfg c9envPos c9md c9s =
      .inl ⟨.existing, { c9s with existingMarker := some ['5'] }, [.search]⟩ ∧
    existingSearchStep c9cfg c9envNeg c9md c9s = .inr (c9s, [.search]) := by
  have h1 := (c9_refilter_first_match c9cfg c9envPos c9md c9s
    [⟨['5'], "x n7 y".data, []⟩] (by decide) (by decide) rfl).1
    ⟨['5'], "x n7 y".data, []⟩ (by decide) (by decide)
  have h2 := (c9_refilter_first_match c9cfg c9envNeg c9md c9s
    [⟨['5'], "zn7".data, []⟩] (by decide) (by decide) rfl).2.2 (by decide)
  exact ⟨h1, h2⟩

/-- C5.  For every content item whose folder contains an `existing` marker
file for the target site, the pipeline terminates with the Existing
classification before performing any network search call — the run performs
no external call at all (`events = []`), even when the existing-check option
is enabled and the metadata carries a `number` field; the live duplicate
search can only run when no such marker is present.  The hypotheses say the
run reaches the marker checks (the guards of lines 273-312 pass) and that no
`published` marker short-circuits first. -/
theorem c5_existing_marker_short_circuits
    (cfg : Config) (env : Env) (s : FolderState) (m : Values) (e : Str)
    (hpath : (cfg.moveOk && (s.relocated || s.targetBlocked)) = false)
    (hmap : (cfg.mapperConfigured && !env.mapperMatches) = false)
    (hmeta : metaOf cfg env s.metadataFile = .ok m)
    (htitle : vget (fullMeta cfg m) titleKey ≠ [])
    (htags : tagCheckFails cfg (fullMeta cfg m) = false)
    (hpub : s.publishedMarker = none)
    (hex : s.existingMarker = some e) :
    publicTorrent cfg env s = ⟨.existing, s, []⟩ := by
  simp [publicTorrent, afterGuards, hpath, hmap, hmeta, htitle, htags, hpub, hex]

def c5cfg : Config :=
  ⟨false, false, true, false, false, true, none, [],
    [(titleKey, [['t']]), (numberKey, [['n', '7']])]⟩

def c5env : Env :=
  ⟨fun _ => none, true, [], none,
    fun _ => .ok [⟨['5'], ['n', '7'], []⟩], .ok ⟨['T'], 10⟩,
    fun _ => true, fun _ => .ok 5, fun _ _ => .ok ['9'], fun _ => .ok ['D'], .ok ()⟩

def c5s : FolderState := ⟨none, none, some [], none, none, false, false⟩

/-- C5 witness: a concrete run with the existing-check enabled, a `number`
field present, and a site search that would match, still short-circuits on
the persisted marker with no events. -/
theorem c5_witness :
    publicTorrent c5cfg c5env c5s = ⟨.existing, c5s, []⟩ ∧
    c5cfg.checkExisting = true ∧ vget (fullMeta c5cfg []) numberKey ≠ [] :=
  ⟨c5_existing_marker_short_circuits c5cfg c5env c5s [] [] (by decide) (by decide)
    rfl (by decide) (by decide) rfl rfl, by decide, by decide⟩

end PtoolPublish
